import Mathlib

/-!
A shallow embedding of the QueueCTL job-queue system (src/src/job.js,
src/src/storage.js, src/src/worker.js, src/src/cli.js and src/src/config.js).

Modelling conventions:
* Timestamps (ISO strings in the source, compared through `new Date`) are
  naturals.  ISO strings produced by the system are never empty, so JavaScript
  falsiness of a timestamp only arises through absence, modelled by `Option`.
* Job states are the string literals of the source (`"pending"`,
  `"processing"`, `"completed"`, `"failed"`, `"dead"`).
* JavaScript `Map` objects are association lists that preserve insertion
  order; `Map.set` on an existing key updates in place, otherwise appends,
  exactly as ECMAScript specifies.
* `storage.save()` persists the in-memory tables and `storage.load()` reads
  them back; in the sequential (single-process) model disk and cache agree, so
  `load` is the identity.  `Storage.getNextPendingJob` is the one routine whose
  behaviour depends on other processes writing the disk between its `load()`
  calls, so it is modelled against an environment supplying the disk snapshot
  each `load()` observes and the availability of the lock file at each
  acquisition attempt.
* The JavaScript `||` default idiom (`data.attempts || 0`,
  `data.max_retries || 3`, ...) is modelled faithfully: the number 0 and the
  empty string are falsy and trigger the default.
-/

/-- A stored job record (class `Job` of src/src/job.js).  `command` is
`Option String` because the constructor copies `data.command` through without
a default, so it can be absent. -/
structure Job where
  id : String
  command : Option String
  state : String
  attempts : Nat
  max_retries : Nat
  created_at : Nat
  updated_at : Nat
  error : Option String
  next_retry_at : Option Nat
  deriving Repr, DecidableEq

/-- The input object handed to `new Job(data)`: every field may be absent. -/
structure JobData where
  id : Option String := none
  command : Option String := none
  state : Option String := none
  attempts : Option Nat := none
  max_retries : Option Nat := none
  created_at : Option Nat := none
  updated_at : Option Nat := none
  error : Option String := none
  next_retry_at : Option Nat := none
  deriving Repr, DecidableEq

/-- JavaScript `x || d` for a possibly-absent string: the empty string is
falsy and triggers the default. -/
def jsOrStr (x : Option String) (d : String) : String :=
  match x with
  | none => d
  | some s => if s = "" then d else s

/-- JavaScript `x || d` for a possibly-absent number: 0 is falsy and triggers
the default. -/
def jsOrNat (x : Option Nat) (d : Nat) : Nat :=
  match x with
  | none => d
  | some n => if n = 0 then d else n

/-- JavaScript `x || null` for a possibly-absent string field kept optional
(`data.error || null`): the empty string collapses to `null`. -/
def jsOrNull (x : Option String) : Option String :=
  match x with
  | none => none
  | some s => if s = "" then none else some s

/-- JavaScript falsiness of the `command` field (`!job.command`): absent or
empty. -/
def jsFalsyCommand (c : Option String) : Bool :=
  match c with
  | none => true
  | some s => s = ""

/-- The `Job` constructor (src/src/job.js lines 2-12).  `genId` is the value
`this.generateId()` would produce and `now` the current clock reading; both
are inputs of the otherwise pure construction.  Timestamps supplied as data
are ISO strings, never empty, so only absence triggers their default. -/
def mkJob (genId : String) (now : Nat) (data : JobData) : Job :=
  { id := jsOrStr data.id genId
    command := data.command
    state := jsOrStr data.state "pending"
    attempts := jsOrNat data.attempts 0
    max_retries := jsOrNat data.max_retries 3
    created_at := data.created_at.getD now
    updated_at := data.updated_at.getD now
    error := jsOrNull data.error
    next_retry_at := data.next_retry_at }

/-- `Job.canRetry` (src/src/job.js lines 39-41). -/
def canRetry (j : Job) : Bool :=
  decide (j.attempts < j.max_retries) && decide (j.state = "failed")

/-- `Job.shouldRetryNow` (src/src/job.js lines 43-46): due when
`next_retry_at` is unset or the clock has reached it. -/
def shouldRetryNow (now : Nat) (j : Job) : Bool :=
  match j.next_retry_at with
  | none => true
  | some t => decide (t ≤ now)

/-- The delay computed by `Job.calculateNextRetry` (src/src/job.js line 49):
`Math.pow(base, this.attempts)`. -/
def calculateNextRetryDelay (base attempts : Nat) : Nat :=
  base ^ attempts

/-- `Job.calculateNextRetry` (src/src/job.js lines 48-53): the instant
`delay` seconds from now. -/
def calculateNextRetry (base now : Nat) (j : Job) : Nat :=
  now + calculateNextRetryDelay base j.attempts

/-! ### JavaScript `Map` as an insertion-ordered association list -/

/-- The entries of a JavaScript `Map` in iteration (insertion) order. -/
abbrev Table := List (String × Job)

/-- `Map.prototype.has`. -/
def mapHas (m : Table) (k : String) : Bool :=
  m.any (fun p => p.1 = k)

/-- `Map.prototype.get`. -/
def mapGet (m : Table) (k : String) : Option Job :=
  (m.find? (fun p => p.1 = k)).map Prod.snd

/-- `Map.prototype.set`: update in place when the key exists, else append. -/
def mapSet (m : Table) (k : String) (v : Job) : Table :=
  if mapHas m k then m.map (fun p => if p.1 = k then (k, v) else p)
  else m ++ [(k, v)]

/-- `Map.prototype.delete` (result map only). -/
def mapDelete (m : Table) (k : String) : Table :=
  m.filter (fun p => !(decide (p.1 = k)))

/-! ### The Store (class `Storage` of src/src/storage.js) -/

/-- The durable state of the `Storage` singleton: the Active table
(`this.jobs`), the DeadLetter table (`this.dlq`) and whether this instance
holds the lock file (`this.lockHandle`). -/
structure Storage where
  jobs : Table
  dlq : Table
  lockHandle : Bool
  deriving Repr, DecidableEq

/-- `Storage.addJob` (src/src/storage.js lines 142-147): insert the record
under its id and persist. -/
def addJob (job : Job) (s : Storage) : Storage :=
  { s with jobs := mapSet s.jobs job.id job }

/-- `Storage.updateJob` (src/src/storage.js lines 153-164): reload (identity
in the sequential model), then write the record only when its id is already
present, returning whether a write happened. -/
def updateJob (job : Job) (s : Storage) : Bool × Storage :=
  if mapHas s.jobs job.id then
    (true, { s with jobs := mapSet s.jobs job.id job })
  else (false, s)

/-- `Storage.deleteJob` (src/src/storage.js lines 166-173). -/
def deleteJob (id : String) (s : Storage) : Bool × Storage :=
  if mapHas s.jobs id then (true, { s with jobs := mapDelete s.jobs id })
  else (false, s)

/-- `Storage.getJobsByState` (src/src/storage.js lines 175-177): the Active
records with the given state, in Map iteration order. -/
def getJobsByState (s : Storage) (state : String) : List Job :=
  (s.jobs.map Prod.snd).filter (fun j => j.state = state)

/-- `Storage.moveToDLQ` (src/src/storage.js lines 259-267): stamp the record
dead, insert it into the DeadLetter table and remove it from Active. -/
def moveToDLQ (now : Nat) (job : Job) (s : Storage) : Storage :=
  let jobData := { job with state := "dead", updated_at := now }
  { s with
    dlq := mapSet s.dlq jobData.id jobData
    jobs := mapDelete s.jobs jobData.id }

/-- `Storage.retryFromDLQ` (src/src/storage.js lines 273-287): when the id is
in the DeadLetter table, reset it to a fresh pending record, move it to
Active and return it; otherwise return null and change nothing. -/
def retryFromDLQ (jobId : String) (now : Nat) (s : Storage) :
    Option Job × Storage :=
  match mapGet s.dlq jobId with
  | none => (none, s)
  | some job =>
    let job' := { job with
      state := "pending"
      attempts := 0
      updated_at := now }
    (some job', { s with
      dlq := mapDelete s.dlq jobId
      jobs := mapSet s.jobs job'.id job' })

/-! ### Enqueue (cli.js `processJobData`, lines 61-82, without JSON parsing)

The spec's `Enqueue(job)` is realized by the CLI: construct the `Job`,
reject when `!job.command` (a `ValidationError` before anything is written),
otherwise `storage.addJob(job)`. -/

/-- `Enqueue`: validate then insert (cli.js lines 61-82 plus
`Storage.addJob`).  On a falsy command the error is reported and the store is
untouched. -/
def enqueue (genId : String) (now : Nat) (data : JobData) (s : Storage) :
    Except String Job × Storage :=
  if jsFalsyCommand (mkJob genId now data).command then
    (Except.error "Job must have a command field", s)
  else
    (Except.ok (mkJob genId now data), addJob (mkJob genId now data) s)

/-! ### The worker's outcome reporting (src/src/worker.js `executeJob`) -/

/-- The success branch of `Worker.executeJob` (worker.js lines 71-76):
mark completed, clear the error, write back. -/
def completeJob (now : Nat) (job : Job) (s : Storage) : Storage :=
  (updateJob { job with state := "completed", updated_at := now, error := none } s).2

/-- The failure branch of `Worker.executeJob` (worker.js lines 77-96):
increment `attempts`; if `attempts >= max_retries` move the record to the
DeadLetter table, else record the failure and the exponential-backoff retry
instant and write it back to Active. -/
def executeJobFailure (base now : Nat) (job : Job) (s : Storage) : Storage :=
  let j1 := { job with attempts := job.attempts + 1, updated_at := now }
  if j1.max_retries ≤ j1.attempts then
    moveToDLQ now { j1 with state := "failed", error := some "Max retries exceeded" } s
  else
    let nra := calculateNextRetry base now j1
    (updateJob { j1 with
      next_retry_at := some nra
      state := "failed"
      error := some ("Failed after " ++ toString j1.attempts ++
        " attempt(s). Will retry at " ++ toString nra) } s).2

/-- One failed execution of the stored job `id`: fetch the current record and
run the failure branch of `Worker.executeJob` on it.  Between failures the
worker only rewrites `state`/`updated_at` (promotion to pending,
worker.js lines 47-51, and the dequeue claim, storage.js lines 204-209), and
the failure branch overwrites both, so those rewrites do not affect the
outcome and the cycle is fully captured by the failure branch on the current
record. -/
def failCycle (base now : Nat) (id : String) (s : Storage) : Storage :=
  match mapGet s.jobs id with
  | none => s
  | some job => executeJobFailure base now job s

/-- `n` consecutive failed executions of job `id`, earliest first. -/
def failTimes (base now : Nat) (id : String) : Nat → Storage → Storage
  | 0, s => s
  | n + 1, s => failTimes base now id n (failCycle base now id s)

/-- The retry scan of `Worker.processNextJob` (worker.js lines 41-45): the
first Failed record, in Active-table iteration order, that can retry and is
due now.  (`Job.fromJSON` re-runs the constructor before the tests; on the
fully-populated records every storage write produces, that round trip leaves
the fields these predicates read unchanged.) -/
def findReadyToRetry (now : Nat) (s : Storage) : Option Job :=
  (getJobsByState s "failed").find? (fun j => canRetry j && shouldRetryNow now j)

/-- The storage mutation performed by `Storage.getNextPendingJob`'s critical
section in the sequential model (storage.js lines 200-211): re-read the
candidate and, if it is still pending, stamp it processing. -/
def dequeueClaim (now : Nat) (id : String) (s : Storage) : Storage :=
  match mapGet s.jobs id with
  | none => s
  | some currentJob =>
    if currentJob.state = "pending" then
      let c2 := { currentJob with state := "processing", updated_at := now }
      { s with jobs := mapSet s.jobs currentJob.id c2 }
    else s

/-! ### `Storage.getNextPendingJob` against a concurrently-written disk

The routine's behaviour depends on what the shared files hold at each of its
`load()` calls and on whether the lock file is free at each acquisition
probe; both are supplied by a `DiskEnv`. -/

/-- The filesystem as observed by this `Storage` instance: the contents of
the jobs and DLQ files at its n-th `load()`, and whether the lock file is
absent or stale (hence acquirable) at its n-th `acquireLock` probe made while
not already holding the lock. -/
structure DiskEnv where
  diskJobs : Nat → Table
  diskDlq : Nat → Table
  lockFree : Nat → Bool

/-- A `Storage` instance together with its load and lock-probe counters. -/
structure DequeueState where
  store : Storage
  loads : Nat
  probes : Nat

/-- `Storage.load` (storage.js lines 110-126): replace the cached tables with
the files' current contents. -/
def doLoad (env : DiskEnv) (st : DequeueState) : DequeueState :=
  { st with
    store := { st.store with
      jobs := env.diskJobs st.loads
      dlq := env.diskDlq st.loads }
    loads := st.loads + 1 }

/-- `Storage.acquireLock` (storage.js lines 75-97): immediately true when
this instance already holds the lock; otherwise succeed exactly when the
lock file is absent or its recorded holder is dead. -/
def acquireLock (env : DiskEnv) (st : DequeueState) : Bool × DequeueState :=
  if st.store.lockHandle then (true, st)
  else if env.lockFree st.probes then
    (true, { st with
      store := { st.store with lockHandle := true }
      probes := st.probes + 1 })
  else (false, { st with probes := st.probes + 1 })

/-- `Storage.acquireLockWithRetry` (storage.js lines 234-242): up to `n`
acquisition attempts. -/
def acquireLockWithRetry (env : DiskEnv) :
    Nat → DequeueState → Bool × DequeueState
  | 0, st => (false, st)
  | n + 1, st =>
    let r := acquireLock env st
    if r.1 then (true, r.2) else acquireLockWithRetry env n r.2

/-- `Storage.releaseLock` (storage.js lines 99-108): drop the lock file when
held. -/
def releaseLock (st : DequeueState) : DequeueState :=
  if st.store.lockHandle then
    { st with store := { st.store with lockHandle := false } }
  else st

/-- Stable insertion of a job into a list sorted by `created_at`
(before the first strictly-later element, after equals). -/
def insertByCreatedAt (j : Job) : List Job → List Job
  | [] => [j]
  | x :: xs =>
    if j.created_at ≤ x.created_at then j :: x :: xs
    else x :: insertByCreatedAt j xs

/-- The stable ascending sort by `created_at` performed at
storage.js line 194 (JavaScript `Array.prototype.sort` is stable). -/
def sortByCreatedAt : List Job → List Job
  | [] => []
  | x :: xs => insertByCreatedAt x (sortByCreatedAt xs)

/-- The candidate loop of `Storage.getNextPendingJob` (storage.js lines
196-218): for each selected candidate, acquire the lock (up to 3 probes),
reload, and re-check the candidate; if it is still pending, claim it, persist,
release the lock and return it; otherwise move to the next candidate.  As in
the source, no release happens on the path where the re-check fails. -/
def tryCandidates (env : DiskEnv) (now : Nat) :
    List Job → DequeueState → Option Job × DequeueState
  | [], st => (none, st)
  | job :: rest, st =>
    let r := acquireLockWithRetry env 3 st
    if r.1 then
      let st2 := doLoad env r.2
      match mapGet st2.store.jobs job.id with
      | some currentJob =>
        if currentJob.state = "pending" then
          let c2 := { currentJob with state := "processing", updated_at := now }
          let st3 := { st2 with
            store := { st2.store with jobs := mapSet st2.store.jobs c2.id c2 } }
          (some c2, releaseLock st3)
        else
          tryCandidates env now rest st2
      | none => tryCandidates env now rest st2
    else tryCandidates env now rest r.2

/-- The outer attempt loop of `Storage.getNextPendingJob` (storage.js lines
189-229), `fuel` attempts remaining: reload, select the pending candidates
oldest-first, run the candidate loop; stop when a job was claimed or no
pending job was seen, else retry after the short delay. -/
def dequeueLoop (env : DiskEnv) (now : Nat) :
    Nat → DequeueState → Option Job × DequeueState
  | 0, st => (none, st)
  | fuel + 1, st =>
    let st1 := doLoad env st
    let pendingJobs := sortByCreatedAt (getJobsByState st1.store "pending")
    let r := tryCandidates env now pendingJobs st1
    match r.1 with
    | some j => (some j, r.2)
    | none =>
      if pendingJobs.length = 0 then (none, r.2)
      else dequeueLoop env now fuel r.2

/-- `Storage.getNextPendingJob` (storage.js lines 184-232): at most 10 outer
attempts. -/
def getNextPendingJob (env : DiskEnv) (now : Nat) (st : DequeueState) :
    Option Job × DequeueState :=
  dequeueLoop env now 10 st

/-! ### Table well-formedness predicates -/

/-- Every entry of the table is keyed by its record's `id`, as every
`Map.set` in the source guarantees (`this.jobs.set(jobData.id, jobData)` and
the like). -/
def wellKeyed (m : Table) : Bool :=
  m.all (fun p => p.1 = p.2.id)

/-- No job id is present in both the Active and the DeadLetter table. -/
def disjointKeys (s : Storage) : Bool :=
  s.jobs.all (fun p => !(mapHas s.dlq p.1))

/-! ### Lemmas about the `Map` model -/

theorem mapHas_cons (p : String × Job) (m : Table) (k : String) :
    mapHas (p :: m) k = (decide (p.1 = k) || mapHas m k) := by
  simp [mapHas]

theorem mapGet_cons (p : String × Job) (m : Table) (k : String) :
    mapGet (p :: m) k = if p.1 = k then some p.2 else mapGet m k := by
  by_cases h : p.1 = k <;> simp [mapGet, List.find?_cons, h]

theorem mapHas_of_mapGet_eq_some (m : Table) (k : String) (j : Job)
    (h : mapGet m k = some j) : mapHas m k = true := by
  induction m with
  | nil => simp [mapGet] at h
  | cons p m ih =>
    rw [mapGet_cons] at h
    rw [mapHas_cons]
    by_cases hp : p.1 = k
    · simp [hp]
    · simp only [hp, if_false] at h
      simp [hp, ih h]

theorem mapHas_map_set (m : Table) (k : String) (v : Job) (k' : String) :
    mapHas (m.map (fun p => if p.1 = k then (k, v) else p)) k' = mapHas m k' := by
  induction m with
  | nil => rfl
  | cons p m ih =>
    by_cases hp : p.1 = k
    · rw [List.map_cons, if_pos hp, mapHas_cons, mapHas_cons, ih, hp]
    · rw [List.map_cons, if_neg hp, mapHas_cons, mapHas_cons, ih]

theorem mapGet_map_set_self (m : Table) (k : String) (v : Job)
    (h : mapHas m k = true) :
    mapGet (m.map (fun p => if p.1 = k then (k, v) else p)) k = some v := by
  induction m with
  | nil => simp [mapHas] at h
  | cons p m ih =>
    rw [mapHas_cons] at h
    by_cases hp : p.1 = k
    · rw [List.map_cons, if_pos hp, mapGet_cons]
      simp
    · have h2 : mapHas m k = true := by simpa [hp] using h
      rw [List.map_cons, if_neg hp, mapGet_cons, if_neg hp, ih h2]

theorem mapGet_map_set_ne (m : Table) (k : String) (v : Job) (k' : String)
    (h : k' ≠ k) :
    mapGet (m.map (fun p => if p.1 = k then (k, v) else p)) k' = mapGet m k' := by
  induction m with
  | nil => rfl
  | cons p m ih =>
    by_cases hp : p.1 = k
    · have hk : ¬ ((k, v).1 = k') := fun hh => h hh.symm
      have hpk : ¬ (p.1 = k') := by
        rw [hp]; exact fun hh => h hh.symm
      rw [List.map_cons, if_pos hp, mapGet_cons, if_neg hk, mapGet_cons,
        if_neg hpk, ih]
    · rw [List.map_cons, if_neg hp, mapGet_cons, mapGet_cons, ih]

theorem mapHas_append (m1 m2 : Table) (k : String) :
    mapHas (m1 ++ m2) k = (mapHas m1 k || mapHas m2 k) := by
  simp [mapHas, List.any_append]

theorem mapGet_append_of_not_has (m1 m2 : Table) (k : String)
    (h : mapHas m1 k = false) : mapGet (m1 ++ m2) k = mapGet m2 k := by
  induction m1 with
  | nil => rfl
  | cons p m ih =>
    rw [mapHas_cons] at h
    have hp : ¬ (p.1 = k) := by
      intro hh
      rw [hh] at h
      simp at h
    have h2 : mapHas m k = false := by simpa [hp] using h
    rw [List.cons_append, mapGet_cons, if_neg hp, ih h2]

theorem mapGet_append_singleton_ne (m : Table) (k : String) (v : Job)
    (k' : String) (h : k' ≠ k) :
    mapGet (m ++ [(k, v)]) k' = mapGet m k' := by
  induction m with
  | nil =>
    rw [List.nil_append, mapGet_cons, if_neg (fun hh => h hh.symm)]
  | cons p m ih =>
    rw [List.cons_append, mapGet_cons, mapGet_cons, ih]

theorem mapGet_mapSet_self (m : Table) (k : String) (v : Job) :
    mapGet (mapSet m k v) k = some v := by
  unfold mapSet
  by_cases hm : mapHas m k = true
  · rw [if_pos hm]
    exact mapGet_map_set_self m k v hm
  · rw [if_neg hm]
    have hf : mapHas m k = false := by simpa using hm
    rw [mapGet_append_of_not_has m [(k, v)] k hf, mapGet_cons, if_pos rfl]

theorem mapGet_mapSet_ne (m : Table) (k k' : String) (v : Job)
    (h : k' ≠ k) : mapGet (mapSet m k v) k' = mapGet m k' := by
  unfold mapSet
  by_cases hm : mapHas m k = true
  · rw [if_pos hm]
    exact mapGet_map_set_ne m k v k' h
  · rw [if_neg hm]
    exact mapGet_append_singleton_ne m k v k' h

theorem mapHas_mapSet (m : Table) (k : String) (v : Job) (k' : String) :
    mapHas (mapSet m k v) k' = (mapHas m k' || decide (k' = k)) := by
  unfold mapSet
  by_cases hm : mapHas m k = true
  · rw [if_pos hm, mapHas_map_set]
    by_cases hk : k' = k
    · subst hk
      simp [hm]
    · simp [hk]
  · rw [if_neg hm, mapHas_append, mapHas_cons]
    by_cases hk : k' = k
    · subst hk
      simp [mapHas]
    · have hkk : ¬ ((k, v).1 = k') := fun hh => hk hh.symm
      simp [mapHas, hk, hkk]

theorem length_mapSet_of_has (m : Table) (k : String) (v : Job)
    (h : mapHas m k = true) : (mapSet m k v).length = m.length := by
  unfold mapSet
  rw [if_pos h, List.length_map]

theorem mapHas_mapDelete (m : Table) (k k' : String) :
    mapHas (mapDelete m k) k' = (mapHas m k' && !(decide (k' = k))) := by
  induction m with
  | nil => rfl
  | cons p m ih =>
    unfold mapDelete at ih ⊢
    rw [List.filter_cons]
    by_cases hp : p.1 = k
    · have hc : (!(decide (p.1 = k))) = false := by simp [hp]
      rw [hc]
      simp only [Bool.false_eq_true, if_false, ih, mapHas_cons]
      by_cases hk : k' = k
      · simp [hk]
      · have hpk : ¬ (p.1 = k') := by
          rw [hp]; exact fun hh => hk hh.symm
        simp [hpk, hk]
    · have hc : (!(decide (p.1 = k))) = true := by simp [hp]
      rw [hc]
      simp only [if_true, mapHas_cons, ih]
      by_cases hq : p.1 = k'
      · have hk : ¬ (k' = k) := by
          rw [← hq]; exact fun hh => hp hh
        simp [hq, hk]
      · simp [hq]

theorem mapGet_mapDelete_self (m : Table) (k : String) :
    mapGet (mapDelete m k) k = none := by
  cases hg : mapGet (mapDelete m k) k with
  | none => rfl
  | some j =>
    have hh := mapHas_of_mapGet_eq_some _ _ _ hg
    rw [mapHas_mapDelete] at hh
    simp at hh

/-- A `mapGet` hit in a well-keyed table is a record whose `id` is the key. -/
theorem wellKeyed_mapGet (m : Table) (k : String) (j : Job)
    (hw : wellKeyed m = true) (h : mapGet m k = some j) : j.id = k := by
  induction m with
  | nil => simp [mapGet] at h
  | cons p m ih =>
    rw [wellKeyed, List.all_cons, Bool.and_eq_true] at hw
    rw [mapGet_cons] at h
    by_cases hp : p.1 = k
    · simp only [hp, if_true, Option.some.injEq] at h
      have hid : p.1 = p.2.id := by simpa using hw.1
      rw [← h, ← hid, hp]
    · simp only [hp, if_false] at h
      exact ih hw.2 h

/-- `disjointKeys` unfolded to key level. -/
theorem disjointKeys_iff (s : Storage) :
    disjointKeys s = true ↔
      ∀ k, mapHas s.jobs k = true → mapHas s.dlq k = false := by
  rw [disjointKeys, List.all_eq_true]
  constructor
  · intro h k hk
    rw [mapHas, List.any_eq_true] at hk
    obtain ⟨p, hp, hpk⟩ := hk
    rw [decide_eq_true_eq] at hpk
    have hb := h p hp
    rw [Bool.not_eq_true'] at hb
    rwa [← hpk]
  · intro h p hp
    rw [Bool.not_eq_true']
    apply h
    rw [mapHas, List.any_eq_true]
    exact ⟨p, hp, by simp⟩

example : mkJob "g" 7 { command := some "echo hi" } =
    { id := "g"
      command := some "echo hi"
      state := "pending"
      attempts := 0
      max_retries := 3
      created_at := 7
      updated_at := 7
      error := none
      next_retry_at := none } := by decide

example : (mkJob "g" 7 { command := some "x", max_retries := some 0 }).max_retries = 3 := by decide

/-! ## The claims -/

/-- The store of a fresh data directory. -/
def emptyStorage : Storage := { jobs := [], dlq := [], lockHandle := false }

/-- C8: the retry delay (`Job.calculateNextRetry`, job.js line 49) is the
pure function `base ^ attempts` of the job's current attempt count; for base
2 and attempts 0, 1, 2 it is 1, 2 and 4 seconds, and the scheduled instant is
that delay past the clock reading. -/
theorem C8_backoff_delay :
    (∀ (base : Nat) (j : Job),
      calculateNextRetryDelay base j.attempts = base ^ j.attempts ∧
      calculateNextRetry base 0 j = calculateNextRetryDelay base j.attempts) ∧
    calculateNextRetryDelay 2 0 = 1 ∧
    calculateNextRetryDelay 2 1 = 2 ∧
    calculateNextRetryDelay 2 2 = 4 := by
  refine ⟨fun base j => ⟨rfl, ?_⟩, rfl, rfl, rfl⟩
  simp [calculateNextRetry]

/-- C9: `Storage.updateJob` for a job id absent from the Active table
returns false and leaves the store, both tables included, unchanged. -/
theorem C9_updateJob_absent_noop (j : Job) (s : Storage)
    (h : mapHas s.jobs j.id = false) : updateJob j s = (false, s) := by
  unfold updateJob
  rw [h]
  simp

/-- C9 witness: a concrete update of an id the Active table lacks. -/
theorem C9_updateJob_absent_noop_witness :
    mapHas emptyStorage.jobs (mkJob "w9" 0 { command := some "c" }).id = false ∧
    updateJob (mkJob "w9" 0 { command := some "c" }) emptyStorage =
      (false, emptyStorage) :=
  ⟨by decide, C9_updateJob_absent_noop _ _ (by decide)⟩

/-- C10: `Storage.addJob` over an id already present replaces the record in
place: the call succeeds, the Active table keeps its size, the new record is
stored under the id, and the DeadLetter table is untouched. -/
theorem C10_addJob_existing_replaces (j : Job) (s : Storage)
    (h : mapHas s.jobs j.id = true) :
    (addJob j s).jobs.length = s.jobs.length ∧
    mapGet (addJob j s).jobs j.id = some j ∧
    (addJob j s).dlq = s.dlq :=
  ⟨length_mapSet_of_has _ _ _ h, mapGet_mapSet_self _ _ _, rfl⟩

/-- A job used by the C10 witness. -/
def w10job : Job := mkJob "a10" 0 { id := some "a10", command := some "c" }

/-- The C10 witness store already holding `w10job`. -/
def w10store : Storage := addJob w10job emptyStorage

/-- C10 witness: re-adding an existing id at a concrete store. -/
theorem C10_addJob_existing_replaces_witness :
    (addJob w10job w10store).jobs.length = w10store.jobs.length ∧
    mapGet (addJob w10job w10store).jobs w10job.id = some w10job ∧
    (addJob w10job w10store).dlq = w10store.dlq :=
  C10_addJob_existing_replaces w10job w10store (by decide)

/-- C2: `Enqueue` (cli.js lines 61-82) with a falsy command fails with the
validation error and writes nothing; with a non-empty command it returns the
constructed job, stores it in Active under its id, leaves DeadLetter alone,
and the id was freshly generated when the input had none. -/
theorem C2_enqueue_validates (genId : String) (now : Nat) (data : JobData)
    (s : Storage) :
    (jsFalsyCommand (mkJob genId now data).command = true →
      enqueue genId now data s =
        (Except.error "Job must have a command field", s)) ∧
    (jsFalsyCommand (mkJob genId now data).command = false →
      (enqueue genId now data s).1 = Except.ok (mkJob genId now data) ∧
      mapGet (enqueue genId now data s).2.jobs (mkJob genId now data).id =
        some (mkJob genId now data) ∧
      (enqueue genId now data s).2.dlq = s.dlq ∧
      (data.id = none → (mkJob genId now data).id = genId)) := by
  constructor
  · intro h
    unfold enqueue
    rw [if_pos h]
  · intro h
    unfold enqueue
    rw [if_neg (by rw [h]; exact Bool.false_ne_true)]
    refine ⟨rfl, mapGet_mapSet_self _ _ _, rfl, ?_⟩
    intro h2
    show jsOrStr data.id genId = genId
    rw [h2]
    rfl

/-- C2 witness: a concrete empty-command rejection and a concrete successful
enqueue with a generated id. -/
theorem C2_enqueue_validates_witness :
    enqueue "g1" 3 { command := some "" } emptyStorage =
      (Except.error "Job must have a command field", emptyStorage) ∧
    (enqueue "g2" 3 { command := some "echo ok" } emptyStorage).1 =
      Except.ok (mkJob "g2" 3 { command := some "echo ok" }) ∧
    (mkJob "g2" 3 { command := some "echo ok" }).id = "g2" :=
  ⟨(C2_enqueue_validates "g1" 3 { command := some "" } emptyStorage).1
      (by decide),
   ((C2_enqueue_validates "g2" 3 { command := some "echo ok" }
      emptyStorage).2 (by decide)).1,
   ((((C2_enqueue_validates "g2" 3 { command := some "echo ok" }
      emptyStorage).2 (by decide)).2).2).2 rfl⟩

/-- C7: `Storage.retryFromDLQ` on an id absent from DeadLetter returns null
with both tables unchanged; on a present id it returns the record reset to
pending with attempts 0, stores it in Active under the id, and removes the
id from DeadLetter. -/
theorem C7_retryFromDLQ_moves (jobId : String) (now : Nat) (s : Storage) :
    (mapGet s.dlq jobId = none → retryFromDLQ jobId now s = (none, s)) ∧
    (∀ j : Job, mapGet s.dlq jobId = some j → wellKeyed s.dlq = true →
      (retryFromDLQ jobId now s).1 =
        some { j with state := "pending", attempts := 0, updated_at := now } ∧
      mapGet (retryFromDLQ jobId now s).2.jobs jobId =
        some { j with state := "pending", attempts := 0, updated_at := now } ∧
      mapGet (retryFromDLQ jobId now s).2.dlq jobId = none) := by
  constructor
  · intro h
    unfold retryFromDLQ
    rw [h]
  · intro j h hw
    have hid : j.id = jobId := wellKeyed_mapGet _ _ _ hw h
    unfold retryFromDLQ
    rw [h]
    refine ⟨rfl, ?_, mapGet_mapDelete_self _ _⟩
    show mapGet (mapSet s.jobs j.id _) jobId = _
    rw [hid]
    exact mapGet_mapSet_self _ _ _

/-- The dead record used by the C7 witness. -/
def w7dead : Job :=
  { id := "d"
    command := some "boom"
    state := "dead"
    attempts := 3
    max_retries := 3
    created_at := 1
    updated_at := 2
    error := some "Max retries exceeded"
    next_retry_at := none }

/-- The C7 witness store: one dead-lettered job, empty Active table. -/
def w7store : Storage := { jobs := [], dlq := [("d", w7dead)], lockHandle := false }

/-- C7 witness: a concrete miss and a concrete DLQ retry. -/
theorem C7_retryFromDLQ_moves_witness :
    retryFromDLQ "zzz" 5 w7store = (none, w7store) ∧
    (retryFromDLQ "d" 5 w7store).1 =
      some { w7dead with state := "pending", attempts := 0, updated_at := 5 } ∧
    mapGet (retryFromDLQ "d" 5 w7store).2.dlq "d" = none :=
  ⟨(C7_retryFromDLQ_moves "zzz" 5 w7store).1 (by decide),
   ((C7_retryFromDLQ_moves "d" 5 w7store).2 w7dead (by decide) (by decide)).1,
   ((C7_retryFromDLQ_moves "d" 5 w7store).2 w7dead (by decide) (by decide)).2.2⟩

/-- The enqueue input of the C1 scenario: `max_retries: 0`. -/
def c1data : JobData := { command := some "exit 1", max_retries := some 0 }

/-- The record the constructor actually builds from `c1data`. -/
def c1job : Job := mkJob "job-1" 0 c1data

/-- The store holding the C1 job. -/
def c1store : Storage := addJob c1job emptyStorage

/-- C1: a job created with `maxRetries = 0` does NOT store 0 — the
constructor's `data.max_retries || 3` (job.js line 7) treats 0 as falsy and
stores 3 — and on its first failure the job is kept in Active as a scheduled
retry (state failed, attempts 1) instead of moving to DeadLetter. -/
theorem C1_maxRetriesZero_defaulted :
    c1job.max_retries = 3 ∧
    mapHas (executeJobFailure 2 1 c1job c1store).jobs c1job.id = true ∧
    mapHas (executeJobFailure 2 1 c1job c1store).dlq c1job.id = false ∧
    (mapGet (executeJobFailure 2 1 c1job c1store).jobs c1job.id).map
      Job.state = some "failed" ∧
    (mapGet (executeJobFailure 2 1 c1job c1store).jobs c1job.id).map
      Job.attempts = some 1 := by
  decide

/-- The pending job another process claims in the C3 trace. -/
def c3pending : Job :=
  { id := "a"
    command := some "exit 1"
    state := "pending"
    attempts := 0
    max_retries := 3
    created_at := 1
    updated_at := 1
    error := none
    next_retry_at := none }

/-- The same record after the other process marked it processing. -/
def c3processing : Job := { c3pending with state := "processing", updated_at := 2 }

/-- The C3 disk trace: the first `load()` still sees job "a" pending (the
reading is stale); every later `load()` sees it processing, the other worker
having claimed it and released the lock before our first probe, which
therefore finds the lock file free. -/
def c3env : DiskEnv :=
  { diskJobs := fun n => if n = 0 then [("a", c3pending)] else [("a", c3processing)]
    diskDlq := fun _ => []
    lockFree := fun _ => true }

/-- The dequeuing instance starts with a cold cache and no lock. -/
def c3start : DequeueState := { store := emptyStorage, loads := 0, probes := 0 }

/-- C3: `Storage.getNextPendingJob` CAN return while still holding the
exclusive lock: when the double-check under the lock finds the candidate no
longer pending, no `releaseLock()` runs on that path (storage.js lines
204-217), so the call returns "none available" with `lockHandle` still
set.  Evaluated on the concrete stale-candidate trace `c3env`. -/
theorem C3_returns_holding_lock :
    (getNextPendingJob c3env 9 c3start).1 = none ∧
    (getNextPendingJob c3env 9 c3start).2.store.lockHandle = true := by
  decide

/-- The first-inserted eligible failed job of the C5 store (newer update). -/
def c5newer : Job :=
  { id := "n"
    command := some "x"
    state := "failed"
    attempts := 1
    max_retries := 3
    created_at := 1
    updated_at := 100
    error := some "e"
    next_retry_at := none }

/-- The second-inserted eligible failed job (older update). -/
def c5older : Job :=
  { id := "o"
    command := some "y"
    state := "failed"
    attempts := 1
    max_retries := 3
    created_at := 1
    updated_at := 50
    error := some "e"
    next_retry_at := none }

/-- The C5 store: two retryable failed jobs, the first-inserted one having
the LATER `updated_at`. -/
def c5store : Storage :=
  { jobs := [("n", c5newer), ("o", c5older)], dlq := [], lockHandle := false }

/-- C5 counterexample: the retry scan (worker.js lines 41-45 uses
`Array.find` over Map insertion order, with no sort) picks `c5newer` even
though `c5older` is eligible and older by `updated_at`, contradicting
"the one promoted is the oldest by updatedAt". -/
theorem C5_not_oldest_by_updatedAt :
    findReadyToRetry 1000 c5store = some c5newer ∧
    c5older ∈ getJobsByState c5store "failed" ∧
    canRetry c5older = true ∧
    shouldRetryNow 1000 c5older = true ∧
    c5older.updated_at < c5newer.updated_at := by
  decide

/-- `find?` returns the head of the filtered list. -/
theorem find?_eq_head_filter {α : Type} (p : α → Bool) (l : List α) :
    l.find? p = (l.filter p).head? := by
  induction l with
  | nil => rfl
  | cons x xs ih =>
    rw [List.find?_cons, List.filter_cons]
    cases h : p x with
    | true => rfl
    | false => exact ih

/-- C5 amended: the job the worker promotes is the FIRST Failed record in
Active-table iteration (insertion) order satisfying `canRetry` and
`shouldRetryNow` — eligible, but not necessarily the oldest by
`updated_at`. -/
theorem C5_promotes_first_eligible_in_order (now : Nat) (s : Storage) :
    findReadyToRetry now s =
      ((getJobsByState s "failed").filter
        (fun j => canRetry j && shouldRetryNow now j)).head? ∧
    ∀ j : Job, findReadyToRetry now s = some j →
      j ∈ getJobsByState s "failed" ∧ canRetry j = true ∧
        shouldRetryNow now j = true := by
  constructor
  · exact find?_eq_head_filter _ _
  · intro j h
    unfold findReadyToRetry at h
    refine ⟨List.mem_of_find?_eq_some h, ?_, ?_⟩
    · have hb := List.find?_some h
      exact (Bool.and_eq_true _ _).mp hb |>.1
    · have hb := List.find?_some h
      exact (Bool.and_eq_true _ _).mp hb |>.2

/-- C5 amended witness: the selected job of the concrete store is eligible. -/
theorem C5_promotes_first_eligible_in_order_witness :
    c5newer ∈ getJobsByState c5store "failed" ∧ canRetry c5newer = true ∧
      shouldRetryNow 1000 c5newer = true :=
  (C5_promotes_first_eligible_in_order 1000 c5store).2 c5newer (by decide)

/-- A job dead-lettered under id "a" for the C4 scenario. -/
def c4dead : Job :=
  { id := "a"
    command := some "boom"
    state := "dead"
    attempts := 3
    max_retries := 3
    created_at := 1
    updated_at := 2
    error := some "Max retries exceeded"
    next_retry_at := none }

/-- The C4 store: id "a" lives only in DeadLetter. -/
def c4store : Storage :=
  { jobs := [], dlq := [("a", c4dead)], lockHandle := false }

/-- A fresh enqueue that reuses id "a". -/
def c4requeued : Job :=
  { id := "a"
    command := some "boom"
    state := "pending"
    attempts := 0
    max_retries := 3
    created_at := 5
    updated_at := 5
    error := none
    next_retry_at := none }

/-- C4 counterexample: `Storage.addJob` (hence Enqueue) never consults the
DeadLetter table, so enqueueing a job whose id is already dead-lettered
leaves the id present in BOTH tables, breaking the claimed invariant. -/
theorem C4_enqueue_breaks_disjointness :
    disjointKeys c4store = true ∧
    mapHas (addJob c4requeued c4store).jobs "a" = true ∧
    mapHas (addJob c4requeued c4store).dlq "a" = true ∧
    disjointKeys (addJob c4requeued c4store) = false := by
  decide

/-- `Storage.updateJob` preserves Active/DeadLetter key disjointness: it only
rewrites an existing Active key. -/
theorem disjointKeys_updateJob (j : Job) (s : Storage)
    (h : disjointKeys s = true) : disjointKeys (updateJob j s).2 = true := by
  unfold updateJob
  by_cases hm : mapHas s.jobs j.id = true
  · rw [if_pos hm]
    rw [disjointKeys_iff] at h ⊢
    dsimp only
    intro k hk
    rw [mapHas_mapSet, Bool.or_eq_true, decide_eq_true_eq] at hk
    cases hk with
    | inl h1 => exact h k h1
    | inr h2 =>
      subst h2
      exact h j.id hm
  · rw [if_neg hm]
    exact h

/-- `Storage.moveToDLQ` preserves key disjointness: the id it adds to
DeadLetter is simultaneously deleted from Active. -/
theorem disjointKeys_moveToDLQ (now : Nat) (j : Job) (s : Storage)
    (h : disjointKeys s = true) : disjointKeys (moveToDLQ now j s) = true := by
  rw [disjointKeys_iff] at h ⊢
  dsimp only [moveToDLQ]
  intro k hk
  rw [mapHas_mapDelete, Bool.and_eq_true] at hk
  obtain ⟨h1, h2⟩ := hk
  rw [Bool.not_eq_true', decide_eq_false_iff_not] at h2
  rw [mapHas_mapSet, h k h1]
  simp [h2]

/-- The failure branch of `Worker.executeJob` preserves key disjointness in
both of its cases. -/
theorem disjointKeys_executeJobFailure (base now : Nat) (j : Job)
    (s : Storage) (h : disjointKeys s = true) :
    disjointKeys (executeJobFailure base now j s) = true := by
  unfold executeJobFailure
  dsimp only
  by_cases hc : j.max_retries ≤ j.attempts + 1
  · rw [if_pos hc]
    exact disjointKeys_moveToDLQ now _ s h
  · rw [if_neg hc]
    exact disjointKeys_updateJob _ s h

/-- `Storage.retryFromDLQ` preserves key disjointness: the id it puts back
into Active is simultaneously deleted from DeadLetter. -/
theorem disjointKeys_retryFromDLQ (i : String) (now : Nat) (s : Storage)
    (h : disjointKeys s = true) (hwd : wellKeyed s.dlq = true) :
    disjointKeys (retryFromDLQ i now s).2 = true := by
  unfold retryFromDLQ
  cases hg : mapGet s.dlq i with
  | none => exact h
  | some j =>
    have hid : j.id = i := wellKeyed_mapGet _ _ _ hwd hg
    rw [disjointKeys_iff] at h ⊢
    dsimp only
    intro k hk
    rw [mapHas_mapSet, Bool.or_eq_true, decide_eq_true_eq] at hk
    rw [mapHas_mapDelete]
    cases hk with
    | inl h1 =>
      rw [h k h1]
      rfl
    | inr h2 =>
      rw [hid] at h2
      subst h2
      simp

/-- The dequeue critical section preserves key disjointness: it only rewrites
a key already present in Active. -/
theorem disjointKeys_dequeueClaim (now : Nat) (i : String) (s : Storage)
    (h : disjointKeys s = true) (hwj : wellKeyed s.jobs = true) :
    disjointKeys (dequeueClaim now i s) = true := by
  unfold dequeueClaim
  cases hg : mapGet s.jobs i with
  | none => exact h
  | some cur =>
    dsimp only
    by_cases hs : cur.state = "pending"
    · rw [if_pos hs]
      have hid : cur.id = i := wellKeyed_mapGet _ _ _ hwj hg
      have hhas : mapHas s.jobs cur.id = true := by
        rw [hid]
        exact mapHas_of_mapGet_eq_some _ _ _ hg
      rw [disjointKeys_iff] at h ⊢
      dsimp only
      intro k hk
      rw [mapHas_mapSet, Bool.or_eq_true, decide_eq_true_eq] at hk
      cases hk with
      | inl h1 => exact h k h1
      | inr h2 =>
        subst h2
        exact h cur.id hhas
    · rw [if_neg hs]
      exact h

/-- `Storage.deleteJob` preserves key disjointness: it only removes. -/
theorem disjointKeys_deleteJob (i : String) (s : Storage)
    (h : disjointKeys s = true) : disjointKeys (deleteJob i s).2 = true := by
  unfold deleteJob
  by_cases hm : mapHas s.jobs i = true
  · rw [if_pos hm]
    rw [disjointKeys_iff] at h ⊢
    dsimp only
    intro k hk
    rw [mapHas_mapDelete, Bool.and_eq_true] at hk
    exact h k hk.1
  · rw [if_neg hm]
    exact h

/-- C4 amended: every Store operation preserves "each job id is in at most
one of Active and DeadLetter" — with the one exception the counterexample
forces: for Enqueue/addJob the enqueued id must not already sit in
DeadLetter (the code never checks this).  The table arguments are well-keyed
as every write path of the code keeps them. -/
theorem C4_operations_preserve_disjointness (base now : Nat) (i : String)
    (j : Job) (s : Storage) (hd : disjointKeys s = true)
    (hwj : wellKeyed s.jobs = true) (hwd : wellKeyed s.dlq = true) :
    (mapHas s.dlq j.id = false → disjointKeys (addJob j s) = true) ∧
    disjointKeys (dequeueClaim now i s) = true ∧
    disjointKeys (completeJob now j s) = true ∧
    disjointKeys (executeJobFailure base now j s) = true ∧
    disjointKeys (retryFromDLQ i now s).2 = true ∧
    disjointKeys (deleteJob i s).2 = true := by
  refine ⟨?_, disjointKeys_dequeueClaim now i s hd hwj,
    disjointKeys_updateJob _ s hd,
    disjointKeys_executeJobFailure base now j s hd,
    disjointKeys_retryFromDLQ i now s hd hwd,
    disjointKeys_deleteJob i s hd⟩
  intro hnd
  rw [disjointKeys_iff] at hd ⊢
  dsimp only [addJob]
  intro k hk
  rw [mapHas_mapSet, Bool.or_eq_true, decide_eq_true_eq] at hk
  cases hk with
  | inl h1 => exact hd k h1
  | inr h2 =>
    subst h2
    exact hnd

/-- A pending job stored in the C4 witness store. -/
def w4pending : Job :=
  { id := "p"
    command := some "run"
    state := "pending"
    attempts := 0
    max_retries := 3
    created_at := 1
    updated_at := 1
    error := none
    next_retry_at := none }

/-- A fresh job with an id in neither table. -/
def w4fresh : Job :=
  { id := "q"
    command := some "other"
    state := "pending"
    attempts := 0
    max_retries := 3
    created_at := 6
    updated_at := 6
    error := none
    next_retry_at := none }

/-- The C4 witness store: one pending job in Active, one dead job in
DeadLetter, disjoint and well-keyed. -/
def w4store : Storage :=
  { jobs := [("p", w4pending)], dlq := [("d", w7dead)], lockHandle := false }

/-- C4 witness: the preservation theorem applied at the concrete store. -/
theorem C4_operations_preserve_disjointness_witness :
    disjointKeys (addJob w4fresh w4store) = true ∧
    disjointKeys (dequeueClaim 9 "p" w4store) = true ∧
    disjointKeys (executeJobFailure 2 9 w4pending w4store) = true ∧
    disjointKeys (retryFromDLQ "d" 9 w4store).2 = true :=
  ⟨(C4_operations_preserve_disjointness 2 9 "d" w4fresh w4store (by decide)
      (by decide) (by decide)).1 (by decide),
   (C4_operations_preserve_disjointness 2 9 "p" w4fresh w4store (by decide)
      (by decide) (by decide)).2.1,
   (C4_operations_preserve_disjointness 2 9 "p" w4pending w4store (by decide)
      (by decide) (by decide)).2.2.2.1,
   (C4_operations_preserve_disjointness 2 9 "d" w4fresh w4store (by decide)
      (by decide) (by decide)).2.2.2.2.1⟩

/-- A final failed execution (`attempts + 1` reaching `max_retries`)
dead-letters the stored record: it leaves Active and lands in DeadLetter
stamped dead with the exhaustion error. -/
theorem failCycle_dead (base now : Nat) (i : String) (s : Storage) (j : Job)
    (hget : mapGet s.jobs i = some j) (hid : j.id = i)
    (hlast : j.max_retries = j.attempts + 1) :
    mapHas (failCycle base now i s).jobs i = false ∧
    mapGet (failCycle base now i s).dlq i =
      some { j with
        attempts := j.attempts + 1
        updated_at := now
        state := "dead"
        error := some "Max retries exceeded" } := by
  unfold failCycle
  rw [hget]
  dsimp only [executeJobFailure]
  rw [if_pos (le_of_eq hlast)]
  dsimp only [moveToDLQ]
  rw [hid]
  constructor
  · rw [mapHas_mapDelete]
    simp
  · exact mapGet_mapSet_self _ _ _

/-- A non-final failed execution (`attempts + 1` still below `max_retries`)
keeps the record in Active, rescheduled with exponential backoff, and leaves
DeadLetter untouched. -/
theorem failCycle_retry (base now : Nat) (i : String) (s : Storage) (j : Job)
    (hget : mapGet s.jobs i = some j) (hid : j.id = i)
    (hmore : j.attempts + 1 < j.max_retries) :
    mapGet (failCycle base now i s).jobs i = some
      { j with
        attempts := j.attempts + 1
        updated_at := now
        next_retry_at :=
          some (now + calculateNextRetryDelay base (j.attempts + 1))
        state := "failed"
        error := some ("Failed after " ++ toString (j.attempts + 1) ++
          " attempt(s). Will retry at " ++
          toString (now + calculateNextRetryDelay base (j.attempts + 1))) } ∧
    (failCycle base now i s).dlq = s.dlq := by
  unfold failCycle
  rw [hget]
  dsimp only [executeJobFailure]
  rw [if_neg (not_le.mpr hmore)]
  unfold updateJob
  dsimp only
  rw [hid, mapHas_of_mapGet_eq_some _ _ _ hget]
  rw [if_pos rfl]
  constructor
  · exact mapGet_mapSet_self _ _ _
  · rfl

/-- After exactly `max_retries - attempts` further consecutive failures
(at least one), the stored record is gone from Active and sits in DeadLetter
as a dead record with `attempts = max_retries` and the error recorded. -/
theorem failTimes_exhausts (base now : Nat) (i : String) (n : Nat) :
    ∀ (s : Storage) (j : Job),
      mapGet s.jobs i = some j → j.id = i →
      j.max_retries = j.attempts + n → 1 ≤ n →
      mapHas (failTimes base now i n s).jobs i = false ∧
      ∃ jd : Job, mapGet (failTimes base now i n s).dlq i = some jd ∧
        jd.attempts = j.max_retries ∧ jd.state = "dead" ∧ jd.error ≠ none := by
  induction n with
  | zero =>
    intro s j _ _ _ h1
    exact absurd h1 (by decide)
  | succ n ih =>
    intro s j hget hid hmr _
    cases Nat.eq_zero_or_pos n with
    | inl h0 =>
      subst h0
      have hc := failCycle_dead base now i s j hget hid hmr
      refine ⟨hc.1, _, hc.2, ?_, rfl, by simp⟩
      show j.attempts + 1 = j.max_retries
      omega
    | inr hpos =>
      have hmore : j.attempts + 1 < j.max_retries := by omega
      have hc := failCycle_retry base now i s j hget hid hmore
      obtain ⟨h1, jd, h2, h3, h4, h5⟩ :=
        ih (failCycle base now i s) _ hc.1
          (by
            show j.id = i
            exact hid)
          (by
            show j.max_retries = j.attempts + 1 + n
            omega)
          hpos
      exact ⟨h1, jd, h2, h3, h4, h5⟩

/-- C6: a job stored with `maxRetries = m` (m ≥ 1, as at least one execution
must happen), starting at 0 attempts, is after `m` consecutive failed
executions absent from the Active table and present in DeadLetter with
`attempts = m`, state dead, and its error field set. -/
theorem C6_dead_after_m_failures (base now m : Nat) (i : String)
    (s : Storage) (j : Job) (hm : 1 ≤ m) (hget : mapGet s.jobs i = some j)
    (hid : j.id = i) (ha : j.attempts = 0) (hmr : j.max_retries = m) :
    mapHas (failTimes base now i m s).jobs i = false ∧
    ∃ jd : Job, mapGet (failTimes base now i m s).dlq i = some jd ∧
      jd.attempts = m ∧ jd.state = "dead" ∧ jd.error ≠ none := by
  obtain ⟨h1, jd, h2, h3, h4, h5⟩ :=
    failTimes_exhausts base now i m s j hget hid (by omega) hm
  exact ⟨h1, jd, h2, by omega, h4, h5⟩

/-- The job of the C6 witness: two retries allowed. -/
def w6job : Job :=
  { id := "a"
    command := some "exit 1"
    state := "pending"
    attempts := 0
    max_retries := 2
    created_at := 1
    updated_at := 1
    error := none
    next_retry_at := none }

/-- The C6 witness store holding that job. -/
def w6store : Storage :=
  { jobs := [("a", w6job)], dlq := [], lockHandle := false }

/-- C6 witness: two consecutive failures dead-letter the concrete job. -/
theorem C6_dead_after_m_failures_witness :
    1 ≤ 2 ∧
    mapHas (failTimes 2 5 "a" 2 w6store).jobs "a" = false ∧
    ∃ jd : Job, mapGet (failTimes 2 5 "a" 2 w6store).dlq "a" = some jd ∧
      jd.attempts = 2 ∧ jd.state = "dead" ∧ jd.error ≠ none :=
  ⟨by decide,
   (C6_dead_after_m_failures 2 5 2 "a" w6store w6job (by decide) (by decide)
      (by decide) (by decide) (by decide)).1,
   (C6_dead_after_m_failures 2 5 2 "a" w6store w6job (by decide) (by decide)
      (by decide) (by decide) (by decide)).2⟩
